import Mathlib

/-!
Shallow embedding of the Mesh / MeshBuilder subsystem of `src/graphics/mesh.rs`.

Modelling conventions:
* 2D positions and color components are rationals (ℚ); the claims under
  verification are about control flow, buffer bookkeeping and structural
  equalities, never about floating-point rounding, so `f32` values are
  carried opaquely as exact rationals.
* The external tessellation service (lyon) is a black box per the spec;
  each tessellating operation receives a `TessEmit` oracle value recording
  what the service emitted through the `BuffersBuilder` callback (positions,
  indices relative to the builder's base offset, and an optional error).
  The `BuffersBuilder` append semantics themselves (offset = vertex count at
  entry, vertices built by the `VertexBuilder` callbacks, indices shifted by
  the offset) are embedded faithfully in `appendTess`.
* The sRGB→linear color conversion (`LinearColor::from(color)`) is a
  color-space detail outside this subsystem's contract; operations take the
  already-converted `LinearColor` that the source stores in `VertexBuilder`.
* Rust panics (`assert!`) are a distinct outcome from recoverable
  `GameResult` errors; `POut` separates the two, and `&mut self` methods
  return the builder state alongside the `Result`.
* GPU buffers are modelled at element granularity: an `GBuffer α` holds a
  fresh handle id and its element contents; `write_buffer` at byte offset 0
  becomes an overwrite of the leading elements.
-/

/-- A 2D point (`f32` pair in the source, carried as exact rationals). -/
structure Pt where
  x : ℚ
  y : ℚ
deriving DecidableEq, Repr

/-- RGBA linear color (`LinearColor`, four `f32` components). -/
structure LinearColor where
  r : ℚ
  g : ℚ
  b : ℚ
  a : ℚ
deriving DecidableEq, Repr

/-- The per-vertex record of `mesh.rs`: position, UV, RGBA color. -/
structure Vertex where
  position : Pt
  uv : Pt
  color : LinearColor
deriving DecidableEq, Repr

/-- Recoverable error values (`GameError`); only the `LyonError` variant is
reachable from this subsystem. -/
inductive GameError where
  | lyonError (msg : String)
deriving DecidableEq, Repr

/-- Fill or stroke tessellation mode (`DrawMode`); the tessellation options it
carries feed only the black-box service, so they are not modelled. -/
inductive DrawMode where
  | fill
  | stroke
deriving DecidableEq, Repr

/-- Outcome of a `&mut self` builder method: either a Rust panic (from an
`assert!`), or a returned `GameResult` together with the builder state after
the call. -/
inductive POut (σ : Type) where
  | panic (msg : String)
  | ret (r : Except GameError Unit) (s : σ)
deriving Repr

/-- What the black-box tessellation service emitted through the
`BuffersBuilder` callback during one call: positions of constructed vertices,
indices relative to the builder's base offset, and the service's error, if it
failed. -/
structure TessEmit where
  verts : List Pt
  inds : List ℕ
  err : Option String
deriving DecidableEq, Repr

/-- `VertexBuilder`: stamps a fixed linear color onto every produced vertex. -/
structure VertexBuilder where
  color : LinearColor
deriving DecidableEq, Repr

/-- The inherent `VertexBuilder::new_vertex` used by the raw `triangles` path:
position-as-UV. -/
def VertexBuilder.new_vertex (vb : VertexBuilder) (position : Pt) : Vertex :=
  { position := position, uv := position, color := vb.color }

/-- The `StrokeVertexConstructor` / `FillVertexConstructor` callbacks: both
produce the tessellator's position with UV `(0,0)` and the stamped color. -/
def VertexBuilder.tess_vertex (vb : VertexBuilder) (position : Pt) : Vertex :=
  { position := position, uv := { x := 0, y := 0 }, color := vb.color }

/-- `MeshBuilder`: the growable vertex and index accumulators
(`tess::VertexBuffers<Vertex, u32>`). -/
structure MeshBuilder where
  vertices : List Vertex
  indices : List ℕ
deriving DecidableEq, Repr

/-- `MeshBuilder::new` / `Default`: empty accumulators. -/
def MeshBuilder.new : MeshBuilder :=
  { vertices := [], indices := [] }

/-- Semantics of `tess::BuffersBuilder::new(buffers, vb)` feeding one
tessellation call: the base offset is the vertex count at entry, emitted
vertices go through the stroke/fill `VertexBuilder` callback, emitted indices
are shifted by the base offset. Appending happens even when the service then
reports an error (the service owns partial emission). -/
def appendTess (b : MeshBuilder) (vb : VertexBuilder) (t : TessEmit) : MeshBuilder :=
  { vertices := b.vertices ++ t.verts.map vb.tess_vertex
    indices := b.indices ++ t.inds.map (fun i => b.vertices.length + i) }

/-- `MeshBuilder::polyline_with_vertex_builder`: asserts `points.len() > 1`,
then hands the polygon to the fill or stroke tessellator and propagates the
service's error with `?`. -/
def MeshBuilder.polyline_with_vertex_builder (b : MeshBuilder) (mode : DrawMode)
    (points : List Pt) (vb : VertexBuilder) (t : TessEmit) : POut MeshBuilder :=
  if points.length ≤ 1 then
    .panic "assertion failed: points.len() > 1"
  else
    let b' := match mode with
      | .fill => appendTess b vb t
      | .stroke => appendTess b vb t
    match t.err with
    | some e => .ret (.error (.lyonError e)) b'
    | none => .ret (.ok ()) b'

/-- `MeshBuilder::polyline`: validates `points.len() >= 2` before touching any
state, then delegates (via `polyline_inner`) to
`polyline_with_vertex_builder` with `is_closed = false`. -/
def MeshBuilder.polyline (b : MeshBuilder) (mode : DrawMode) (points : List Pt)
    (vb : VertexBuilder) (t : TessEmit) : POut MeshBuilder :=
  if points.length < 2 then
    .ret (.error (.lyonError "MeshBuilder::polyline() got a list of < 2 points")) b
  else
    b.polyline_with_vertex_builder mode points vb t

/-- `MeshBuilder::polygon`: validates `points.len() >= 3` before touching any
state, then delegates with `is_closed = true`. -/
def MeshBuilder.polygon (b : MeshBuilder) (mode : DrawMode) (points : List Pt)
    (vb : VertexBuilder) (t : TessEmit) : POut MeshBuilder :=
  if points.length < 3 then
    .ret (.error (.lyonError "MeshBuilder::polygon() got a list of < 3 points")) b
  else
    b.polyline_with_vertex_builder mode points vb t

/-- `MeshBuilder::line`: `polyline` with a stroke mode of the given width (the
width feeds only the black-box stroke options). -/
def MeshBuilder.line (b : MeshBuilder) (points : List Pt) (_width : ℚ)
    (vb : VertexBuilder) (t : TessEmit) : POut MeshBuilder :=
  b.polyline .stroke points vb t

/-- `MeshBuilder::circle`: `assert!(tolerance > 0.0)`, then tessellates and
discards the service's result with `let _ =`. -/
def MeshBuilder.circle (b : MeshBuilder) (mode : DrawMode) (_point : Pt)
    (_radius : ℚ) (tolerance : ℚ) (vb : VertexBuilder) (t : TessEmit) :
    POut MeshBuilder :=
  if tolerance > 0 then
    let b' := match mode with
      | .fill => appendTess b vb t
      | .stroke => appendTess b vb t
    .ret (.ok ()) b'
  else
    .panic "Tolerances <= 0 are invalid, see https://github.com/ggez/ggez/issues/892"

/-- `MeshBuilder::ellipse`: `assert!(tolerance > 0.0)`, then tessellates and
discards the service's result with `let _ =`. -/
def MeshBuilder.ellipse (b : MeshBuilder) (mode : DrawMode) (_point : Pt)
    (_radius1 _radius2 : ℚ) (tolerance : ℚ) (vb : VertexBuilder) (t : TessEmit) :
    POut MeshBuilder :=
  if tolerance > 0 then
    let b' := match mode with
      | .fill => appendTess b vb t
      | .stroke => appendTess b vb t
    .ret (.ok ()) b'
  else
    .panic "Tolerances <= 0 are invalid, see https://github.com/ggez/ggez/issues/892"

/-- `MeshBuilder::rectangle`: tessellates the rectangle and discards the
service's result with `let _ =`; always returns `Ok`. -/
def MeshBuilder.rectangle (b : MeshBuilder) (mode : DrawMode)
    (_bounds : Pt × Pt) (vb : VertexBuilder) (t : TessEmit) : POut MeshBuilder :=
  let b' := match mode with
    | .fill => appendTess b vb t
    | .stroke => appendTess b vb t
  .ret (.ok ()) b'

/-- `MeshBuilder::rounded_rectangle`: builds the rounded-rectangle path,
tessellates it and discards the service's result with `let _ =`; always
returns `Ok`. -/
def MeshBuilder.rounded_rectangle (b : MeshBuilder) (mode : DrawMode)
    (_bounds : Pt × Pt) (_radius : ℚ) (vb : VertexBuilder) (t : TessEmit) :
    POut MeshBuilder :=
  let b' := match mode with
    | .fill => appendTess b vb t
    | .stroke => appendTess b vb t
  .ret (.ok ()) b'

/-- The chunked loop of `MeshBuilder::triangles`: for each consecutive triple,
record `first_index = vertices.len()`, push the three vertices built with
position-as-UV, push the three indices `first_index, +1, +2`. A trailing chunk
of fewer than three points cannot occur under the guard (the source asserts
`tri.len() == 3`). -/
def trianglesLoop (vb : VertexBuilder) (b : MeshBuilder) :
    List Pt → MeshBuilder
  | p0 :: p1 :: p2 :: rest =>
      let first_index := b.vertices.length
      trianglesLoop vb
        { vertices :=
            b.vertices ++ [vb.new_vertex p0, vb.new_vertex p1, vb.new_vertex p2]
          indices := b.indices ++ [first_index, first_index + 1, first_index + 2] }
        rest
  | _ => b

/-- `MeshBuilder::triangles`: validates `points.len() % 3 == 0` before touching
any state, then runs the chunked loop. -/
def MeshBuilder.triangles (b : MeshBuilder) (points : List Pt)
    (vb : VertexBuilder) : POut MeshBuilder :=
  if points.length % 3 ≠ 0 then
    .ret (.error (.lyonError
      "Called Mesh::triangles() with points that have a length not a multiple of 3.")) b
  else
    .ret (.ok ()) (trianglesLoop vb b points)

/-- `MeshData`: the view over a builder's current vertices and indices (the
borrow is modelled by copying the sequences). -/
structure MeshData where
  vertices : List Vertex
  indices : List ℕ
deriving DecidableEq, Repr

/-- `MeshBuilder::build(&self)`: exposes the accumulators as a `MeshData` view;
taking `&self` is modelled by also returning the (unchanged) builder. -/
def MeshBuilder.build (b : MeshBuilder) : MeshData × MeshBuilder :=
  ({ vertices := b.vertices, indices := b.indices }, b)

/-- A GPU buffer handle owned through `ArcBuffer`: a device-allocated buffer
identified by a fresh handle id, holding its element contents (capacity many
elements; the spec's byte offsets map to element offsets since every element
has the fixed stride). -/
structure GBuffer (α : Type) where
  id : ℕ
  data : List α
deriving DecidableEq, Repr

/-- Process-global mutable state: the `NEXT_MESH_ID` atomic counter, plus a
fresh-handle counter standing for device buffer allocation. Each operation on
it is one indivisible step, modelling the atomic `fetch_add`. -/
structure Globals where
  nextMeshId : ℕ
  nextBufId : ℕ
deriving DecidableEq, Repr

/-- Device buffer creation (`create_buffer_init`): a fresh handle whose initial
contents are the uploaded elements. -/
def createBuffer {α : Type} (g : Globals) (contents : List α) :
    GBuffer α × Globals :=
  ({ id := g.nextBufId, data := contents },
   { g with nextBufId := g.nextBufId + 1 })

/-- `queue.write_buffer(buf, 0, bytes)`: overwrite the leading
`new.length` elements of the buffer, leaving the tail intact. -/
def writeBuffer {α : Type} (buf : GBuffer α) (new : List α) : GBuffer α :=
  { buf with data := new ++ buf.data.drop new.length }

/-- The `Mesh` record: owned vertex/index buffers, capacities, counts, id. -/
structure Mesh where
  verts : GBuffer Vertex
  inds : GBuffer ℕ
  verts_capacity : ℕ
  inds_capacity : ℕ
  vertex_count : ℕ
  index_count : ℕ
  id : ℕ
deriving DecidableEq, Repr

/-- `Mesh::create_verts`: upload the vertex slice into a fresh buffer. -/
def Mesh.create_verts (g : Globals) (vertices : List Vertex) :
    GBuffer Vertex × Globals :=
  createBuffer g vertices

/-- `Mesh::create_inds`: upload the index slice into a fresh buffer. -/
def Mesh.create_inds (g : Globals) (indices : List ℕ) :
    GBuffer ℕ × Globals :=
  createBuffer g indices

/-- `Mesh::new`: fresh buffers sized exactly to the slices, capacities and
counts equal to the lengths, id from `NEXT_MESH_ID.fetch_add(1)` (the value
before the increment). -/
def Mesh.new (g : Globals) (vertices : List Vertex) (indices : List ℕ) :
    Mesh × Globals :=
  let (vb, g1) := Mesh.create_verts g vertices
  let (ib, g2) := Mesh.create_inds g1 indices
  ({ verts := vb
     inds := ib
     verts_capacity := vertices.length
     inds_capacity := indices.length
     vertex_count := vertices.length
     index_count := indices.length
     id := g2.nextMeshId },
   { g2 with nextMeshId := g2.nextMeshId + 1 })

/-- `Mesh::from_data`: `new` over the view's vertices and indices. -/
def Mesh.from_data (g : Globals) (data : MeshData) : Mesh × Globals :=
  Mesh.new g data.vertices data.indices

/-- `Mesh::update_id`: take a fresh value from the global counter. -/
def Mesh.update_id (m : Mesh) (g : Globals) : Mesh × Globals :=
  ({ m with id := g.nextMeshId }, { g with nextMeshId := g.nextMeshId + 1 })

/-- `Mesh::set_vertices`: set the count; if the new length exceeds the vertex
capacity, grow capacity to the new length, reallocate the buffer and mint a
new id; otherwise write in place at offset 0. -/
def Mesh.set_vertices (m : Mesh) (g : Globals) (vertices : List Vertex) :
    Mesh × Globals :=
  let m := { m with vertex_count := vertices.length }
  if vertices.length > m.verts_capacity then
    let m := { m with verts_capacity := vertices.length }
    let (vb, g1) := Mesh.create_verts g vertices
    Mesh.update_id { m with verts := vb } g1
  else
    ({ m with verts := writeBuffer m.verts vertices }, g)

/-- `Mesh::set_indices`: symmetric to `set_vertices` over the index buffer. -/
def Mesh.set_indices (m : Mesh) (g : Globals) (indices : List ℕ) :
    Mesh × Globals :=
  let m := { m with index_count := indices.length }
  if indices.length > m.inds_capacity then
    let m := { m with inds_capacity := indices.length }
    let (ib, g1) := Mesh.create_inds g indices
    Mesh.update_id { m with inds := ib } g1
  else
    ({ m with inds := writeBuffer m.inds indices }, g)

/-- One shape-emission call on a `MeshBuilder`, with the oracle value of the
black-box tessellation service where one is consulted. -/
inductive Op where
  | line (points : List Pt) (width : ℚ) (vb : VertexBuilder) (t : TessEmit)
  | polyline (mode : DrawMode) (points : List Pt) (vb : VertexBuilder) (t : TessEmit)
  | polygon (mode : DrawMode) (points : List Pt) (vb : VertexBuilder) (t : TessEmit)
  | pwvb (mode : DrawMode) (points : List Pt) (vb : VertexBuilder) (t : TessEmit)
  | circle (mode : DrawMode) (point : Pt) (radius tolerance : ℚ)
      (vb : VertexBuilder) (t : TessEmit)
  | ellipse (mode : DrawMode) (point : Pt) (radius1 radius2 tolerance : ℚ)
      (vb : VertexBuilder) (t : TessEmit)
  | rectangle (mode : DrawMode) (bounds : Pt × Pt) (vb : VertexBuilder) (t : TessEmit)
  | rounded_rectangle (mode : DrawMode) (bounds : Pt × Pt) (radius : ℚ)
      (vb : VertexBuilder) (t : TessEmit)
  | triangles (points : List Pt) (vb : VertexBuilder)

/-- Dispatch one shape-emission call to the corresponding builder method. -/
def applyOp (b : MeshBuilder) : Op → POut MeshBuilder
  | .line points width vb t => b.line points width vb t
  | .polyline mode points vb t => b.polyline mode points vb t
  | .polygon mode points vb t => b.polygon mode points vb t
  | .pwvb mode points vb t => b.polyline_with_vertex_builder mode points vb t
  | .circle mode point radius tolerance vb t =>
      b.circle mode point radius tolerance vb t
  | .ellipse mode point radius1 radius2 tolerance vb t =>
      b.ellipse mode point radius1 radius2 tolerance vb t
  | .rectangle mode bounds vb t => b.rectangle mode bounds vb t
  | .rounded_rectangle mode bounds radius vb t =>
      b.rounded_rectangle mode bounds radius vb t
  | .triangles points vb => b.triangles points vb

/-- One successful (`Ok`-returning) shape-emission step between builder
states. -/
def OkStep (b b' : MeshBuilder) : Prop :=
  ∃ op, applyOp b op = .ret (.ok ()) b'

/-- `b'` is reachable from `b` by a finite sequence of successful
shape-emission calls. -/
def BuilderReaches (b b' : MeshBuilder) : Prop :=
  Relation.ReflTransGen OkStep b b'

/-- One operation of the mesh lifecycle against the process-global state:
construct a mesh (tracked in a list), or update one by position. Slices and
views are the call's inputs. -/
inductive MOp where
  | newMesh (vertices : List Vertex) (indices : List ℕ)
  | fromData (data : MeshData)
  | setVertices (i : ℕ) (vertices : List Vertex)
  | setIndices (i : ℕ) (indices : List ℕ)

/-- The whole-process state for mesh lifecycle traces: the globals and every
mesh constructed so far. -/
structure Sys where
  globals : Globals
  meshes : List Mesh

/-- Apply one mesh-lifecycle operation; each counter access inside is the
atomic `fetch_add`, so an interleaved multi-threaded execution is some
sequence of these steps. An update addressed to an index with no mesh is a
no-op. -/
def applyMOp (s : Sys) : MOp → Sys
  | .newMesh vertices indices =>
      let (m, g') := Mesh.new s.globals vertices indices
      { globals := g', meshes := s.meshes ++ [m] }
  | .fromData data =>
      let (m, g') := Mesh.from_data s.globals data
      { globals := g', meshes := s.meshes ++ [m] }
  | .setVertices i vertices =>
      match s.meshes[i]? with
      | some m =>
          let (m', g') := m.set_vertices s.globals vertices
          { globals := g', meshes := s.meshes.set i m' }
      | none => s
  | .setIndices i indices =>
      match s.meshes[i]? with
      | some m =>
          let (m', g') := m.set_indices s.globals indices
          { globals := g', meshes := s.meshes.set i m' }
      | none => s

/-- Run a trace of mesh-lifecycle operations. -/
def runSys (s : Sys) : List MOp → Sys
  | [] => s
  | op :: ops => runSys (applyMOp s op) ops

/-- The empty process state: counter at 0, no meshes. -/
def initSys : Sys :=
  { globals := { nextMeshId := 0, nextBufId := 0 }, meshes := [] }

/-- `wgpu::VertexAttribute` as declared in `Vertex::layout()`: a format (whose
byte size is what layout checking needs), a byte offset, a shader location. -/
structure WVertexAttribute where
  format_size : ℕ
  offset : ℕ
  shader_location : ℕ
deriving DecidableEq, Repr

/-- The `ATTRIBUTES` constant of `Vertex::layout()`: `Float32x2` at offset 0,
`Float32x2` at offset 8, `Float32x4` at offset 16. -/
def ATTRIBUTES : List WVertexAttribute :=
  [ { format_size := 8, offset := 0, shader_location := 0 },
    { format_size := 8, offset := 8, shader_location := 1 },
    { format_size := 16, offset := 16, shader_location := 2 } ]

/-- Round `off` up to the next multiple of the alignment `a`. -/
def alignUp (off a : ℕ) : ℕ :=
  ((off + a - 1) / a) * a

/-- Field offsets under Rust `repr(C)` layout: each field is placed at the
current offset rounded up to the field's alignment. Input: `(size, align)`
per field, in declaration order. -/
def reprCOffsets : List (ℕ × ℕ) → ℕ → List ℕ
  | [], _ => []
  | (sz, al) :: rest, off =>
      let o := alignUp off al
      o :: reprCOffsets rest (o + sz)

/-- Total `repr(C)` struct size: the end of the last field rounded up to the
struct alignment (the max field alignment). -/
def reprCSize (fields : List (ℕ × ℕ)) : ℕ :=
  let ends := (reprCOffsets fields 0).zip fields
  let rawEnd := ends.foldl (fun acc (p : ℕ × ℕ × ℕ) => max acc (p.1 + p.2.1)) 0
  let align := fields.foldl (fun acc p => max acc p.2) 1
  alignUp rawEnd align

/-- The fields of `Vertex` in declaration order with `(size, align)` in bytes:
`[f32; 2]`, `[f32; 2]`, `[f32; 4]` (each `f32` is 4 bytes, alignment 4). -/
def vertexFields : List (ℕ × ℕ) :=
  [(8, 4), (8, 4), (16, 4)]

/-- `std::mem::size_of::<Vertex>()` under `repr(C)`. -/
def sizeOfVertex : ℕ :=
  reprCSize vertexFields

/-- The `array_stride` of `Vertex::layout()`:
`std::mem::size_of::<Vertex>() as u64`. -/
def vertexLayoutArrayStride : ℕ :=
  sizeOfVertex

/-- One successful raw-`triangles` step between builder states. -/
def TriStep (b b' : MeshBuilder) : Prop :=
  ∃ points vb, b.triangles points vb = .ret (.ok ()) b'

/-- `b'` is produced from `b` solely by successful `triangles` calls. -/
def TriOnlyReaches (b b' : MeshBuilder) : Prop :=
  Relation.ReflTransGen TriStep b b'

/-- Sample point for concrete instantiations. -/
def pt0 : Pt := { x := 0, y := 0 }

/-- A second sample point. -/
def pt1 : Pt := { x := 1, y := 2 }

/-- Sample linear color. -/
def lc0 : LinearColor := { r := 0, g := 0, b := 0, a := 1 }

/-- Sample vertex builder stamping `lc0`. -/
def vb0 : VertexBuilder := { color := lc0 }

/-- Sample vertex. -/
def v0 : Vertex := { position := pt0, uv := pt0, color := lc0 }

/-- Tessellation oracle: the service emitted nothing and succeeded. -/
def t0 : TessEmit := { verts := [], inds := [], err := none }

/-- Tessellation oracle: one emitted vertex, one emitted index, success. -/
def t1 : TessEmit := { verts := [pt0], inds := [0], err := none }

/-- Tessellation oracle: the service emitted nothing and failed. -/
def tErr : TessEmit := { verts := [], inds := [], err := some "degenerate path" }

/-- Concrete scenario, step 1: `Mesh::new` with 3 vertices and 3 indices,
from a counter at 0. -/
def scenarioM0 : Mesh × Globals :=
  Mesh.new initSys.globals (List.replicate 3 v0) [0, 1, 2]

/-- Concrete scenario, step 2: `set_vertices` with 5 vertices. -/
def scenarioM1 : Mesh × Globals :=
  scenarioM0.1.set_vertices scenarioM0.2 (List.replicate 5 v0)

/-- Concrete scenario, step 3: `set_vertices` with 2 vertices. -/
def scenarioM2 : Mesh × Globals :=
  scenarioM1.1.set_vertices scenarioM1.2 (List.replicate 2 v0)

theorem Mesh.set_vertices_grow (m : Mesh) (g : Globals) (vs : List Vertex)
    (h : m.verts_capacity < vs.length) :
    m.set_vertices g vs =
      ({ m with
          vertex_count := vs.length
          verts_capacity := vs.length
          verts := { id := g.nextBufId, data := vs }
          id := g.nextMeshId },
       { nextMeshId := g.nextMeshId + 1, nextBufId := g.nextBufId + 1 }) := by
  simp [Mesh.set_vertices, Mesh.create_verts, createBuffer, Mesh.update_id, h]

theorem Mesh.set_vertices_inplace (m : Mesh) (g : Globals) (vs : List Vertex)
    (h : vs.length ≤ m.verts_capacity) :
    m.set_vertices g vs =
      ({ m with vertex_count := vs.length, verts := writeBuffer m.verts vs }, g) := by
  simp [Mesh.set_vertices, not_lt.mpr h]

theorem Mesh.set_indices_grow (m : Mesh) (g : Globals) (is : List ℕ)
    (h : m.inds_capacity < is.length) :
    m.set_indices g is =
      ({ m with
          index_count := is.length
          inds_capacity := is.length
          inds := { id := g.nextBufId, data := is }
          id := g.nextMeshId },
       { nextMeshId := g.nextMeshId + 1, nextBufId := g.nextBufId + 1 }) := by
  simp [Mesh.set_indices, Mesh.create_inds, createBuffer, Mesh.update_id, h]

theorem Mesh.set_indices_inplace (m : Mesh) (g : Globals) (is : List ℕ)
    (h : is.length ≤ m.inds_capacity) :
    m.set_indices g is =
      ({ m with index_count := is.length, inds := writeBuffer m.inds is }, g) := by
  simp [Mesh.set_indices, not_lt.mpr h]

/-- C9: the `Vertex` record's binary layout matches the declared GPU contract:
the attribute offsets hard-coded in `Vertex::layout()` equal the `repr(C)`
field offsets of `Vertex` (position at 0, UV at 8, color at 16), and the
declared `array_stride`, which is `size_of::<Vertex>()`, is 32 bytes. -/
theorem vertex_layout_matches_gpu_contract :
    ATTRIBUTES.map WVertexAttribute.offset = reprCOffsets vertexFields 0 ∧
    ATTRIBUTES.map WVertexAttribute.offset = [0, 8, 16] ∧
    sizeOfVertex = 32 ∧
    vertexLayoutArrayStride = sizeOfVertex := by
  decide

/-- C8: `build()` neither mutates nor consumes the builder: the builder after
the call is the builder before it, two consecutive builds expose identical
vertex and index contents, and every shape-emission call behaves on the
post-build builder exactly as on the original. -/
theorem build_is_pure_and_nonconsuming (b : MeshBuilder) :
    b.build.2 = b ∧
    b.build.2.build.1 = b.build.1 ∧
    b.build.1.vertices = b.vertices ∧
    b.build.1.indices = b.indices ∧
    (∀ op, applyOp b.build.2 op = applyOp b op) :=
  ⟨rfl, rfl, rfl, rfl, fun _ => rfl⟩

/-- C5: each failed validation check — `polyline`/`line` with fewer than 2
points, `polygon` with fewer than 3, `triangles` with a length not a multiple
of 3 — returns the recoverable `LyonError` naming the violated constraint and
leaves the builder exactly as it was. -/
theorem shape_validation_leaves_builder_unchanged
    (b : MeshBuilder) (mode : DrawMode) (points pts : List Pt) (width : ℚ)
    (vb : VertexBuilder) (t : TessEmit) :
    (points.length < 2 →
      b.polyline mode points vb t =
        .ret (.error (.lyonError "MeshBuilder::polyline() got a list of < 2 points")) b ∧
      b.line points width vb t =
        .ret (.error (.lyonError "MeshBuilder::polyline() got a list of < 2 points")) b) ∧
    (points.length < 3 →
      b.polygon mode points vb t =
        .ret (.error (.lyonError "MeshBuilder::polygon() got a list of < 3 points")) b) ∧
    (pts.length % 3 ≠ 0 →
      b.triangles pts vb =
        .ret (.error (.lyonError
          "Called Mesh::triangles() with points that have a length not a multiple of 3.")) b) := by
  refine ⟨fun h => ⟨?_, ?_⟩, fun h => ?_, fun h => ?_⟩ <;>
    simp [MeshBuilder.polyline, MeshBuilder.line, MeshBuilder.polygon,
      MeshBuilder.triangles, h]

theorem shape_validation_witness :
    ([pt0].length < 2 ∧ [pt0].length < 3 ∧ [pt0].length % 3 ≠ 0) ∧
    MeshBuilder.new.polyline .fill [pt0] vb0 t0 =
      .ret (.error (.lyonError "MeshBuilder::polyline() got a list of < 2 points"))
        MeshBuilder.new ∧
    MeshBuilder.new.polygon .fill [pt0] vb0 t0 =
      .ret (.error (.lyonError "MeshBuilder::polygon() got a list of < 3 points"))
        MeshBuilder.new ∧
    MeshBuilder.new.triangles [pt0] vb0 =
      .ret (.error (.lyonError
        "Called Mesh::triangles() with points that have a length not a multiple of 3."))
        MeshBuilder.new :=
  ⟨⟨by decide, by decide, by decide⟩,
   ((shape_validation_leaves_builder_unchanged MeshBuilder.new .fill [pt0] [pt0] 1 vb0 t0).1
      (by decide)).1,
   (shape_validation_leaves_builder_unchanged MeshBuilder.new .fill [pt0] [pt0] 1 vb0 t0).2.1
      (by decide),
   (shape_validation_leaves_builder_unchanged MeshBuilder.new .fill [pt0] [pt0] 1 vb0 t0).2.2
      (by decide)⟩

/-- C6: `circle` and `ellipse` with `tolerance <= 0` abort with the `assert!`
panic (never a recoverable error value); with `tolerance > 0` the assertion
never fires and the call returns normally. -/
theorem tolerance_assert_contract (b : MeshBuilder) (mode : DrawMode) (point : Pt)
    (radius radius1 radius2 tolerance : ℚ) (vb : VertexBuilder) (t : TessEmit) :
    (tolerance ≤ 0 →
      b.circle mode point radius tolerance vb t =
        .panic "Tolerances <= 0 are invalid, see https://github.com/ggez/ggez/issues/892" ∧
      b.ellipse mode point radius1 radius2 tolerance vb t =
        .panic "Tolerances <= 0 are invalid, see https://github.com/ggez/ggez/issues/892") ∧
    (0 < tolerance →
      b.circle mode point radius tolerance vb t = .ret (.ok ()) (appendTess b vb t) ∧
      b.ellipse mode point radius1 radius2 tolerance vb t =
        .ret (.ok ()) (appendTess b vb t)) := by
  constructor
  · intro h
    constructor <;> simp [MeshBuilder.circle, MeshBuilder.ellipse, not_lt.mpr h]
  · intro h
    cases mode <;> exact ⟨by simp [MeshBuilder.circle, h], by simp [MeshBuilder.ellipse, h]⟩

theorem tolerance_assert_witness :
    ((-1 : ℚ) ≤ 0 ∧
      MeshBuilder.new.circle .fill pt0 1 (-1) vb0 t0 =
        .panic "Tolerances <= 0 are invalid, see https://github.com/ggez/ggez/issues/892") ∧
    (0 < (1 : ℚ) ∧
      MeshBuilder.new.circle .fill pt0 1 1 vb0 t0 =
        .ret (.ok ()) (appendTess MeshBuilder.new vb0 t0)) :=
  ⟨⟨by norm_num,
    ((tolerance_assert_contract MeshBuilder.new .fill pt0 1 1 1 (-1) vb0 t0).1
      (by norm_num)).1⟩,
   ⟨by norm_num,
    ((tolerance_assert_contract MeshBuilder.new .fill pt0 1 1 1 1 vb0 t0).2
      (by norm_num)).1⟩⟩

/-- C2: `set_vertices` (and symmetrically `set_indices`) with a slice no longer
than the current capacity leaves capacity, identity, the owned buffer handle
and the globals unchanged, sets the count to the new length, and writes the
new elements into the existing buffer starting at offset 0 (the tail beyond
the written prefix is retained). -/
theorem set_inplace_preserves_capacity_id_handle
    (m : Mesh) (g : Globals) (vs : List Vertex) (is : List ℕ)
    (hv : vs.length ≤ m.verts_capacity) (hi : is.length ≤ m.inds_capacity) :
    ((m.set_vertices g vs).1.verts_capacity = m.verts_capacity ∧
     (m.set_vertices g vs).1.id = m.id ∧
     (m.set_vertices g vs).1.verts.id = m.verts.id ∧
     (m.set_vertices g vs).1.vertex_count = vs.length ∧
     (m.set_vertices g vs).1.verts.data = vs ++ m.verts.data.drop vs.length ∧
     (m.set_vertices g vs).2 = g) ∧
    ((m.set_indices g is).1.inds_capacity = m.inds_capacity ∧
     (m.set_indices g is).1.id = m.id ∧
     (m.set_indices g is).1.inds.id = m.inds.id ∧
     (m.set_indices g is).1.index_count = is.length ∧
     (m.set_indices g is).1.inds.data = is ++ m.inds.data.drop is.length ∧
     (m.set_indices g is).2 = g) := by
  rw [Mesh.set_vertices_inplace m g vs hv, Mesh.set_indices_inplace m g is hi]
  simp [writeBuffer]

theorem set_inplace_witness :
    ([v0].length ≤ scenarioM0.1.verts_capacity ∧
     ([] : List ℕ).length ≤ scenarioM0.1.inds_capacity) ∧
    (scenarioM0.1.set_vertices scenarioM0.2 [v0]).1.verts_capacity =
      scenarioM0.1.verts_capacity ∧
    (scenarioM0.1.set_vertices scenarioM0.2 [v0]).1.id = scenarioM0.1.id ∧
    (scenarioM0.1.set_vertices scenarioM0.2 [v0]).1.verts.id = scenarioM0.1.verts.id ∧
    (scenarioM0.1.set_vertices scenarioM0.2 [v0]).1.vertex_count = [v0].length ∧
    (scenarioM0.1.set_vertices scenarioM0.2 [v0]).1.verts.data =
      [v0] ++ scenarioM0.1.verts.data.drop [v0].length ∧
    (scenarioM0.1.set_vertices scenarioM0.2 [v0]).2 = scenarioM0.2 :=
  have h := set_inplace_preserves_capacity_id_handle scenarioM0.1 scenarioM0.2 [v0] []
    (by decide) (by decide)
  ⟨⟨by decide, by decide⟩, h.1.1, h.1.2.1, h.1.2.2.1, h.1.2.2.2.1, h.1.2.2.2.2.1,
   h.1.2.2.2.2.2⟩

/-- C1: `set_vertices` (and symmetrically `set_indices`) with a slice longer
than the current capacity sets capacity and count to the new length and mints
an identity numerically greater than the previous one (the previous identity
is below the global counter for every mesh the program can construct, as the
lifecycle invariant proves); concretely, `Mesh::new` with 3 vertices, then
`set_vertices` with 5, then with 2, gives vertex capacities 3, 5, 5 and the
identity changes exactly once, at the second call. -/
theorem set_grow_updates_capacity_and_id
    (m : Mesh) (g : Globals) (vs : List Vertex) (is : List ℕ)
    (hv : m.verts_capacity < vs.length) (hi : m.inds_capacity < is.length)
    (hid : m.id < g.nextMeshId) :
    ((m.set_vertices g vs).1.verts_capacity = vs.length ∧
     (m.set_vertices g vs).1.vertex_count = vs.length ∧
     m.id < (m.set_vertices g vs).1.id) ∧
    ((m.set_indices g is).1.inds_capacity = is.length ∧
     (m.set_indices g is).1.index_count = is.length ∧
     m.id < (m.set_indices g is).1.id) ∧
    (scenarioM0.1.verts_capacity = 3 ∧ scenarioM1.1.verts_capacity = 5 ∧
     scenarioM2.1.verts_capacity = 5 ∧ scenarioM0.1.id < scenarioM1.1.id ∧
     scenarioM2.1.id = scenarioM1.1.id ∧
     scenarioM1.1.vertex_count = 5 ∧ scenarioM2.1.vertex_count = 2) := by
  rw [Mesh.set_vertices_grow m g vs hv, Mesh.set_indices_grow m g is hi]
  refine ⟨⟨rfl, rfl, hid⟩, ⟨rfl, rfl, hid⟩, ?_⟩
  decide

theorem set_grow_witness :
    (scenarioM0.1.verts_capacity < (List.replicate 5 v0).length ∧
     scenarioM0.1.inds_capacity < (List.replicate 4 0).length ∧
     scenarioM0.1.id < scenarioM0.2.nextMeshId) ∧
    (scenarioM0.1.set_vertices scenarioM0.2 (List.replicate 5 v0)).1.verts_capacity =
      (List.replicate 5 v0).length ∧
    scenarioM0.1.id <
      (scenarioM0.1.set_vertices scenarioM0.2 (List.replicate 5 v0)).1.id :=
  have h := set_grow_updates_capacity_and_id scenarioM0.1 scenarioM0.2
    (List.replicate 5 v0) (List.replicate 4 0) (by decide) (by decide) (by decide)
  ⟨⟨by decide, by decide, by decide⟩, h.1.1, h.1.2.2⟩

theorem trianglesLoop_spec (vb : VertexBuilder) :
    ∀ (pts : List Pt) (b : MeshBuilder), pts.length % 3 = 0 →
      trianglesLoop vb b pts =
        { vertices := b.vertices ++ pts.map vb.new_vertex
          indices := b.indices ++ List.range' b.vertices.length pts.length }
  | [], b, _ => by simp [trianglesLoop]
  | [_], _, h => by simp at h
  | [_, _], _, h => by simp at h
  | p0 :: p1 :: p2 :: rest, b, h => by
    have hr : rest.length % 3 = 0 := by
      simp only [List.length_cons] at h
      omega
    have step : trianglesLoop vb b (p0 :: p1 :: p2 :: rest) =
        trianglesLoop vb
          { vertices := b.vertices ++
              [vb.new_vertex p0, vb.new_vertex p1, vb.new_vertex p2]
            indices := b.indices ++
              [b.vertices.length, b.vertices.length + 1, b.vertices.length + 2] }
          rest := rfl
    rw [step, trianglesLoop_spec vb rest _ hr]
    have hlen : (p0 :: p1 :: p2 :: rest).length = rest.length + 3 := by
      simp
    have hr3 : List.range' b.vertices.length 3 =
        [b.vertices.length, b.vertices.length + 1, b.vertices.length + 2] := by
      simp [List.range'_succ]
    have key : List.range' b.vertices.length (rest.length + 3) =
        b.vertices.length :: (b.vertices.length + 1) :: (b.vertices.length + 2) ::
          List.range' (b.vertices.length + 3) rest.length := by
      rw [← List.range'_append_1 b.vertices.length 3 rest.length, hr3]
      rfl
    simp only [hlen, key, List.length_append]
    simp [List.append_assoc]

theorem range_append_range' (n k : ℕ) :
    List.range n ++ List.range' n k = List.range (n + k) := by
  rw [List.range_add, List.range'_eq_map_range]

theorem triangles_ok_elim (b : MeshBuilder) (pts : List Pt) (vb : VertexBuilder)
    (b' : MeshBuilder) (h : b.triangles pts vb = .ret (.ok ()) b') :
    pts.length % 3 = 0 ∧ b' = trianglesLoop vb b pts := by
  by_cases h3 : pts.length % 3 = 0
  · refine ⟨h3, ?_⟩
    simp [MeshBuilder.triangles, h3] at h
    exact h.symm
  · simp [MeshBuilder.triangles, h3] at h

theorem triReaches_invariant (b b' : MeshBuilder) (h : TriOnlyReaches b b')
    (hb : b.indices = List.range b.vertices.length ∧ b.vertices.length % 3 = 0) :
    b'.indices = List.range b'.vertices.length ∧ b'.vertices.length % 3 = 0 := by
  induction h with
  | refl => exact hb
  | tail _ hstep ih =>
    obtain ⟨pts, vb, heq⟩ := hstep
    obtain ⟨h3, hb2⟩ := triangles_ok_elim _ _ _ _ heq
    rw [hb2, trianglesLoop_spec vb pts _ h3]
    constructor
    · simp only [ih.1, List.length_append, List.length_map]
      exact range_append_range' _ _
    · simp only [List.length_append, List.length_map]
      omega

/-- C4: a `triangles` call whose point count is a multiple of 3 on a builder
holding `v` vertices succeeds, appends one vertex per point in input order
(UV equal to position, the stamped color) and appends the consecutive indices
`v, v+1, v+2, ...`; consequently a builder filled solely by `triangles` calls
has `indices = [0, 1, 2, ...]` with `indices.length = vertices.length` and
`indices.length % 3 = 0`. -/
theorem triangles_appends_sequential_indices
    (b : MeshBuilder) (pts : List Pt) (vb : VertexBuilder)
    (h : pts.length % 3 = 0) :
    (b.triangles pts vb = .ret (.ok ())
      { vertices := b.vertices ++ pts.map vb.new_vertex
        indices := b.indices ++ List.range' b.vertices.length pts.length }) ∧
    (∀ b', TriOnlyReaches MeshBuilder.new b' →
      b'.indices = List.range b'.vertices.length ∧
      b'.indices.length = b'.vertices.length ∧
      b'.indices.length % 3 = 0) := by
  constructor
  · simp [MeshBuilder.triangles, h, trianglesLoop_spec vb pts b h]
  · intro b' hb'
    have hinv := triReaches_invariant MeshBuilder.new b' hb' ⟨rfl, rfl⟩
    refine ⟨hinv.1, ?_, ?_⟩
    · rw [hinv.1, List.length_range]
    · rw [hinv.1, List.length_range]
      exact hinv.2

theorem triangles_appends_witness :
    [pt0, pt0, pt1].length % 3 = 0 ∧
    MeshBuilder.new.triangles [pt0, pt0, pt1] vb0 = .ret (.ok ())
      { vertices := MeshBuilder.new.vertices ++ [pt0, pt0, pt1].map vb0.new_vertex
        indices := MeshBuilder.new.indices ++
          List.range' MeshBuilder.new.vertices.length [pt0, pt0, pt1].length } :=
  ⟨by decide,
   (triangles_appends_sequential_indices MeshBuilder.new [pt0, pt0, pt1] vb0 (by decide)).1⟩

theorem pwvb_ok_elim (b : MeshBuilder) (mode : DrawMode) (points : List Pt)
    (vb : VertexBuilder) (t : TessEmit) (b' : MeshBuilder)
    (h : b.polyline_with_vertex_builder mode points vb t = .ret (.ok ()) b') :
    b' = appendTess b vb t := by
  by_cases hle : points.length ≤ 1
  · simp [MeshBuilder.polyline_with_vertex_builder, hle] at h
  · cases herr : t.err with
    | some e =>
      cases mode <;>
        simp [MeshBuilder.polyline_with_vertex_builder, hle, herr] at h
    | none =>
      cases mode <;>
        simp [MeshBuilder.polyline_with_vertex_builder, hle, herr] at h <;>
        exact h.symm

theorem okStep_result (b : MeshBuilder) (op : Op) (b' : MeshBuilder)
    (h : applyOp b op = .ret (.ok ()) b') :
    b' = appendTess b vb0 t0 ∨
    (∃ vb t, b' = appendTess b vb t) ∨
    (∃ vb pts, b' = trianglesLoop vb b pts ∧ pts.length % 3 = 0) := by
  cases op with
  | line points width vb t =>
    right; left
    refine ⟨vb, t, ?_⟩
    simp only [applyOp, MeshBuilder.line, MeshBuilder.polyline] at h
    by_cases h2 : points.length < 2
    · simp [h2] at h
    · rw [if_neg h2] at h
      exact pwvb_ok_elim _ _ _ _ _ _ h
  | polyline mode points vb t =>
    right; left
    refine ⟨vb, t, ?_⟩
    simp only [applyOp, MeshBuilder.polyline] at h
    by_cases h2 : points.length < 2
    · simp [h2] at h
    · rw [if_neg h2] at h
      exact pwvb_ok_elim _ _ _ _ _ _ h
  | polygon mode points vb t =>
    right; left
    refine ⟨vb, t, ?_⟩
    simp only [applyOp, MeshBuilder.polygon] at h
    by_cases h3 : points.length < 3
    · simp [h3] at h
    · rw [if_neg h3] at h
      exact pwvb_ok_elim _ _ _ _ _ _ h
  | pwvb mode points vb t =>
    right; left
    exact ⟨vb, t, pwvb_ok_elim _ _ _ _ _ _ h⟩
  | circle mode point radius tolerance vb t =>
    right; left
    refine ⟨vb, t, ?_⟩
    by_cases htol : tolerance > 0
    · cases mode <;> simp [applyOp, MeshBuilder.circle, htol] at h <;> exact h.symm
    · simp [applyOp, MeshBuilder.circle, htol] at h
  | ellipse mode point radius1 radius2 tolerance vb t =>
    right; left
    refine ⟨vb, t, ?_⟩
    by_cases htol : tolerance > 0
    · cases mode <;> simp [applyOp, MeshBuilder.ellipse, htol] at h <;> exact h.symm
    · simp [applyOp, MeshBuilder.ellipse, htol] at h
  | rectangle mode bounds vb t =>
    right; left
    refine ⟨vb, t, ?_⟩
    cases mode <;> simp [applyOp, MeshBuilder.rectangle] at h <;> exact h.symm
  | rounded_rectangle mode bounds radius vb t =>
    right; left
    refine ⟨vb, t, ?_⟩
    cases mode <;> simp [applyOp, MeshBuilder.rounded_rectangle] at h <;> exact h.symm
  | triangles points vb =>
    right; right
    have := triangles_ok_elim b points vb b' h
    exact ⟨vb, points, this.2, this.1⟩

theorem okStep_extends (b : MeshBuilder) (op : Op) (b' : MeshBuilder)
    (h : applyOp b op = .ret (.ok ()) b') :
    b.vertices <+: b'.vertices ∧ b.indices <+: b'.indices := by
  rcases okStep_result b op b' h with h1 | ⟨vb, t, h1⟩ | ⟨vb, pts, h1, h3⟩
  · rw [h1]
    exact ⟨⟨_, rfl⟩, ⟨_, rfl⟩⟩
  · rw [h1]
    exact ⟨⟨_, rfl⟩, ⟨_, rfl⟩⟩
  · rw [h1, trianglesLoop_spec vb pts b h3]
    exact ⟨⟨_, rfl⟩, ⟨_, rfl⟩⟩

/-- C7: the builder's accumulators are append-only: across any finite sequence
of successful shape-emission calls, the earlier vertex sequence is a prefix of
the later one and likewise for indices — no entry is removed, shrunk or
reordered. -/
theorem builder_append_only (b b' : MeshBuilder) (h : BuilderReaches b b') :
    b.vertices <+: b'.vertices ∧ b.indices <+: b'.indices := by
  induction h with
  | refl => exact ⟨List.prefix_refl _, List.prefix_refl _⟩
  | tail _ hstep ih =>
    obtain ⟨op, hop⟩ := hstep
    have hp := okStep_extends _ op _ hop
    exact ⟨ih.1.trans hp.1, ih.2.trans hp.2⟩

theorem builder_append_only_witness :
    BuilderReaches MeshBuilder.new (appendTess MeshBuilder.new vb0 t1) ∧
    MeshBuilder.new.vertices <+: (appendTess MeshBuilder.new vb0 t1).vertices ∧
    MeshBuilder.new.indices <+: (appendTess MeshBuilder.new vb0 t1).indices :=
  have h : BuilderReaches MeshBuilder.new (appendTess MeshBuilder.new vb0 t1) :=
    Relation.ReflTransGen.single ⟨Op.rectangle .fill (pt0, pt0) vb0 t1, rfl⟩
  ⟨h, (builder_append_only _ _ h).1, (builder_append_only _ _ h).2⟩

/-- C10: with a positive tolerance, `circle` and `ellipse` return `Ok`
unconditionally, as do `rectangle` and `rounded_rectangle` always — the
tessellation service's error is discarded by `let _ =` on these paths — while
`polyline` and `polygon` propagate the service's error to the caller via `?`. -/
theorem tessellation_error_swallowing
    (b : MeshBuilder) (mode : DrawMode) (point : Pt) (bounds : Pt × Pt)
    (radius radius1 radius2 tolerance cradius : ℚ) (points : List Pt)
    (vb : VertexBuilder) (t : TessEmit) (e : String) :
    (0 < tolerance →
      b.circle mode point radius tolerance vb t = .ret (.ok ()) (appendTess b vb t) ∧
      b.ellipse mode point radius1 radius2 tolerance vb t =
        .ret (.ok ()) (appendTess b vb t)) ∧
    b.rectangle mode bounds vb t = .ret (.ok ()) (appendTess b vb t) ∧
    b.rounded_rectangle mode bounds cradius vb t = .ret (.ok ()) (appendTess b vb t) ∧
    (2 ≤ points.length → t.err = some e →
      b.polyline mode points vb t = .ret (.error (.lyonError e)) (appendTess b vb t)) ∧
    (3 ≤ points.length → t.err = some e →
      b.polygon mode points vb t = .ret (.error (.lyonError e)) (appendTess b vb t)) := by
  refine ⟨fun htol => ?_, ?_, ?_, fun h2 herr => ?_, fun h3 herr => ?_⟩
  · cases mode <;>
      exact ⟨by simp [MeshBuilder.circle, htol], by simp [MeshBuilder.ellipse, htol]⟩
  · cases mode <;> simp [MeshBuilder.rectangle]
  · cases mode <;> simp [MeshBuilder.rounded_rectangle]
  · have hnlt : ¬ points.length < 2 := by omega
    have hgt : ¬ points.length ≤ 1 := by omega
    cases mode <;>
      simp [MeshBuilder.polyline, MeshBuilder.polyline_with_vertex_builder,
        hnlt, hgt, herr]
  · have hnlt : ¬ points.length < 3 := by omega
    have hgt : ¬ points.length ≤ 1 := by omega
    cases mode <;>
      simp [MeshBuilder.polygon, MeshBuilder.polyline_with_vertex_builder,
        hnlt, hgt, herr]

theorem tessellation_error_swallowing_witness :
    (0 < (1 : ℚ) ∧ 2 ≤ [pt0, pt1].length ∧ tErr.err = some "degenerate path") ∧
    MeshBuilder.new.circle .fill pt0 1 1 vb0 tErr =
      .ret (.ok ()) (appendTess MeshBuilder.new vb0 tErr) ∧
    MeshBuilder.new.rectangle .fill (pt0, pt0) vb0 tErr =
      .ret (.ok ()) (appendTess MeshBuilder.new vb0 tErr) ∧
    MeshBuilder.new.polyline .fill [pt0, pt1] vb0 tErr =
      .ret (.error (.lyonError "degenerate path")) (appendTess MeshBuilder.new vb0 tErr) :=
  have h := tessellation_error_swallowing MeshBuilder.new .fill pt0 (pt0, pt0)
    1 1 1 1 1 [pt0, pt1] vb0 tErr "degenerate path"
  ⟨⟨by norm_num, by decide, rfl⟩, (h.1 (by norm_num)).1, h.2.1,
   h.2.2.2.1 (by decide) rfl⟩

theorem set_of_getElem_eq {α : Type} :
    ∀ (l : List α) (i : ℕ) (a : α), l[i]? = some a → l.set i a = l
  | [], _, _, h => by simp at h
  | x :: xs, 0, a, h => by
    simp only [List.getElem?_cons_zero, Option.some.injEq] at h
    simp [h]
  | _ :: xs, i + 1, a, h => by
    simp only [List.getElem?_cons_succ] at h
    simp [set_of_getElem_eq xs i a h]

theorem Mesh.new_id_counter (g : Globals) (vs : List Vertex) (is : List ℕ) :
    (Mesh.new g vs is).1.id = g.nextMeshId ∧
    (Mesh.new g vs is).2.nextMeshId = g.nextMeshId + 1 := by
  simp [Mesh.new, Mesh.create_verts, Mesh.create_inds, createBuffer]

theorem sys_push_invariant (s : Sys) (vs : List Vertex) (is : List ℕ)
    (hb : ∀ m ∈ s.meshes, m.id < s.globals.nextMeshId)
    (hn : (s.meshes.map Mesh.id).Nodup) :
    (∀ m ∈ s.meshes ++ [(Mesh.new s.globals vs is).1],
      m.id < (Mesh.new s.globals vs is).2.nextMeshId) ∧
    ((s.meshes ++ [(Mesh.new s.globals vs is).1]).map Mesh.id).Nodup ∧
    s.globals.nextMeshId ≤ (Mesh.new s.globals vs is).2.nextMeshId := by
  obtain ⟨hid, hg⟩ := Mesh.new_id_counter s.globals vs is
  refine ⟨?_, ?_, ?_⟩
  · intro m hm
    rw [hg]
    rcases List.mem_append.1 hm with h | h
    · exact Nat.lt_succ_of_lt (hb m h)
    · simp only [List.mem_singleton] at h
      rw [h, hid]
      exact Nat.lt_succ_self _
  · rw [List.map_append, List.nodup_append]
    refine ⟨hn, by simp, ?_⟩
    intro a ha hmem
    simp only [List.map_cons, List.map_nil, List.mem_singleton] at hmem
    obtain ⟨m, hm, hma⟩ := List.mem_map.1 ha
    have := hb m hm
    omega
  · rw [hg]
    exact Nat.le_succ _

theorem applyMOp_invariant (s : Sys) (op : MOp)
    (hb : ∀ m ∈ s.meshes, m.id < s.globals.nextMeshId)
    (hn : (s.meshes.map Mesh.id).Nodup) :
    (∀ m ∈ (applyMOp s op).meshes, m.id < (applyMOp s op).globals.nextMeshId) ∧
    ((applyMOp s op).meshes.map Mesh.id).Nodup ∧
    s.globals.nextMeshId ≤ (applyMOp s op).globals.nextMeshId := by
  cases op with
  | newMesh vs is => exact sys_push_invariant s vs is hb hn
  | fromData d => exact sys_push_invariant s d.vertices d.indices hb hn
  | setVertices i vs =>
    cases hget : s.meshes[i]? with
    | none =>
      simp only [applyMOp, hget]
      exact ⟨hb, hn, le_refl _⟩
    | some m =>
      simp only [applyMOp, hget]
      by_cases hc : m.verts_capacity < vs.length
      · rw [Mesh.set_vertices_grow m s.globals vs hc]
        refine ⟨?_, ?_, Nat.le_succ _⟩
        · intro m' hm'
          rcases List.mem_or_eq_of_mem_set hm' with h | h
          · exact Nat.lt_succ_of_lt (hb m' h)
          · rw [h]
            exact Nat.lt_succ_self _
        · rw [List.map_set]
          refine List.Nodup.set hn ?_
          intro hmem
          obtain ⟨m', hm', hma⟩ := List.mem_map.1 hmem
          have hlt := hb m' hm'
          rw [hma] at hlt
          exact Nat.lt_irrefl _ hlt
      · rw [Mesh.set_vertices_inplace m s.globals vs (not_lt.1 hc)]
        refine ⟨?_, ?_, le_refl _⟩
        · intro m' hm'
          rcases List.mem_or_eq_of_mem_set hm' with h | h
          · exact hb m' h
          · rw [h]
            exact hb m (List.getElem?_mem hget)
        · rw [List.map_set]
          have hg : (s.meshes.map Mesh.id)[i]? = some m.id := by
            rw [List.getElem?_map, hget]
            rfl
          rw [set_of_getElem_eq _ i _ hg]
          exact hn
  | setIndices i is =>
    cases hget : s.meshes[i]? with
    | none =>
      simp only [applyMOp, hget]
      exact ⟨hb, hn, le_refl _⟩
    | some m =>
      simp only [applyMOp, hget]
      by_cases hc : m.inds_capacity < is.length
      · rw [Mesh.set_indices_grow m s.globals is hc]
        refine ⟨?_, ?_, Nat.le_succ _⟩
        · intro m' hm'
          rcases List.mem_or_eq_of_mem_set hm' with h | h
          · exact Nat.lt_succ_of_lt (hb m' h)
          · rw [h]
            exact Nat.lt_succ_self _
        · rw [List.map_set]
          refine List.Nodup.set hn ?_
          intro hmem
          obtain ⟨m', hm', hma⟩ := List.mem_map.1 hmem
          have hlt := hb m' hm'
          rw [hma] at hlt
          exact Nat.lt_irrefl _ hlt
      · rw [Mesh.set_indices_inplace m s.globals is (not_lt.1 hc)]
        refine ⟨?_, ?_, le_refl _⟩
        · intro m' hm'
          rcases List.mem_or_eq_of_mem_set hm' with h | h
          · exact hb m' h
          · rw [h]
            exact hb m (List.getElem?_mem hget)
        · rw [List.map_set]
          have hg : (s.meshes.map Mesh.id)[i]? = some m.id := by
            rw [List.getElem?_map, hget]
            rfl
          rw [set_of_getElem_eq _ i _ hg]
          exact hn

theorem runSys_invariant :
    ∀ (ops : List MOp) (s : Sys),
      (∀ m ∈ s.meshes, m.id < s.globals.nextMeshId) →
      (s.meshes.map Mesh.id).Nodup →
      (∀ m ∈ (runSys s ops).meshes, m.id < (runSys s ops).globals.nextMeshId) ∧
      ((runSys s ops).meshes.map Mesh.id).Nodup ∧
      s.globals.nextMeshId ≤ (runSys s ops).globals.nextMeshId
  | [], _, hb, hn => ⟨hb, hn, le_refl _⟩
  | op :: ops, s, hb, hn => by
    have h1 := applyMOp_invariant s op hb hn
    have h2 := runSys_invariant ops (applyMOp s op) h1.1 h1.2.1
    exact ⟨h2.1, h2.2.1, le_trans h1.2.2 h2.2.2⟩

/-- C3: the identity comes from the single process-wide counter: `new` and
`from_data` take the counter's current value and increment it, a reallocating
`set_vertices`/`set_indices` does the same, an in-place overwrite leaves both
the identity and the counter untouched, and along every trace of operations
from the initial state the meshes' identities are pairwise distinct and each
stays below the (monotonically increasing) counter. -/
theorem mesh_identity_counter_unique (ops : List MOp) (g : Globals)
    (vsG vsS : List Vertex) (isG isS : List ℕ) (d : MeshData) (m : Mesh)
    (hvG : m.verts_capacity < vsG.length) (hvS : vsS.length ≤ m.verts_capacity)
    (hiG : m.inds_capacity < isG.length) (hiS : isS.length ≤ m.inds_capacity) :
    ((Mesh.new g vsG isG).1.id = g.nextMeshId ∧
     (Mesh.new g vsG isG).2.nextMeshId = g.nextMeshId + 1) ∧
    ((Mesh.from_data g d).1.id = g.nextMeshId ∧
     (Mesh.from_data g d).2.nextMeshId = g.nextMeshId + 1) ∧
    ((m.set_vertices g vsG).1.id = g.nextMeshId ∧
     (m.set_vertices g vsG).2.nextMeshId = g.nextMeshId + 1) ∧
    ((m.set_vertices g vsS).1.id = m.id ∧ (m.set_vertices g vsS).2 = g) ∧
    ((m.set_indices g isG).1.id = g.nextMeshId ∧
     (m.set_indices g isG).2.nextMeshId = g.nextMeshId + 1) ∧
    ((m.set_indices g isS).1.id = m.id ∧ (m.set_indices g isS).2 = g) ∧
    ((runSys initSys ops).meshes.map Mesh.id).Nodup ∧
    (∀ m' ∈ (runSys initSys ops).meshes,
      m'.id < (runSys initSys ops).globals.nextMeshId) := by
  have hrun := runSys_invariant ops initSys (by intro m' hm'; simp [initSys] at hm')
    (by simp [initSys])
  refine ⟨Mesh.new_id_counter g vsG isG, Mesh.new_id_counter g d.vertices d.indices,
    ?_, ?_, ?_, ?_, hrun.2.1, hrun.1⟩
  · rw [Mesh.set_vertices_grow m g vsG hvG]
    exact ⟨rfl, rfl⟩
  · rw [Mesh.set_vertices_inplace m g vsS hvS]
    exact ⟨rfl, rfl⟩
  · rw [Mesh.set_indices_grow m g isG hiG]
    exact ⟨rfl, rfl⟩
  · rw [Mesh.set_indices_inplace m g isS hiS]
    exact ⟨rfl, rfl⟩

theorem mesh_identity_counter_witness :
    (scenarioM0.1.verts_capacity < (List.replicate 5 v0).length ∧
     [v0].length ≤ scenarioM0.1.verts_capacity ∧
     scenarioM0.1.inds_capacity < (List.replicate 4 0).length ∧
     [(0 : ℕ)].length ≤ scenarioM0.1.inds_capacity) ∧
    (scenarioM0.1.set_vertices scenarioM0.2 (List.replicate 5 v0)).1.id =
      scenarioM0.2.nextMeshId ∧
    (scenarioM0.1.set_vertices scenarioM0.2 [v0]).1.id = scenarioM0.1.id ∧
    ((runSys initSys [MOp.newMesh [] [], MOp.newMesh [] []]).meshes.map Mesh.id).Nodup :=
  have h := mesh_identity_counter_unique [MOp.newMesh [] [], MOp.newMesh [] []]
    scenarioM0.2 (List.replicate 5 v0) [v0] (List.replicate 4 0) [0]
    { vertices := [], indices := [] } scenarioM0.1
    (by decide) (by decide) (by decide) (by decide)
  ⟨⟨by decide, by decide, by decide, by decide⟩, h.2.2.1.1, h.2.2.2.1.1,
   h.2.2.2.2.2.2.1⟩
